import Mathlib

/-!
Shallow embedding of the fission CLI package subsystem
(`src/unnamed/part_000` and `src/pkg/fission-cli/cmd/package/package.go`).

Go structs become Lean structures, Go functions become Lean functions.
External effects (filesystem globs, stat, archive zipping, HTTP download,
storage-service upload, SHA-256) are passed in as an explicit environment
record, so every operation is a pure function of the environment and the
remote-store state (lists of packages and functions).
-/

namespace Fission

/-- Build status constants of `fv1.BuildStatus`. -/
inductive BuildStatus
  | BuildStatusNone
  | BuildStatusPending
  | BuildStatusRunning
  | BuildStatusSucceeded
  | BuildStatusFailed
deriving DecidableEq, Repr

/-- Archive type constants of `fv1.ArchiveType` (Literal or Url). -/
inductive ArchiveType
  | literal
  | url
deriving DecidableEq, Repr

/-- A checksum record, `fv1.Checksum` (Type and Sum fields). -/
structure Checksum where
  type : String
  sum : String
deriving DecidableEq, Repr

/-- The constant `fv1.ChecksumTypeSHA256`. -/
def ChecksumTypeSHA256 : String := "sha256"

/-- An archive, `fv1.Archive`: type, literal bytes (bytes as Nat), URL, and
an optional checksum (none models the unset Go zero value). -/
structure Archive where
  type : ArchiveType
  literal : List Nat
  url : String
  checksum : Option Checksum
deriving DecidableEq, Repr

/-- An environment reference, `fv1.EnvironmentReference` (Name, Namespace);
the namespace field is called nspace because namespace is a Lean keyword. -/
structure EnvironmentReference where
  name : String
  nspace : String
deriving DecidableEq, Repr

/-- Object metadata, `metav1.ObjectMeta`: name, namespace and the opaque
resource-version token handed out by the remote store. -/
structure ObjectMeta where
  name : String
  nspace : String
  resourceVersion : String
deriving DecidableEq, Repr

/-- The package spec, `fv1.PackageSpec`. -/
structure PackageSpec where
  environment : EnvironmentReference
  source : Archive
  deployment : Archive
  buildCommand : String
deriving DecidableEq, Repr

/-- The package status, `fv1.PackageStatus`: build status plus build log.
The Go zero value of BuildLog is the empty string. -/
structure PackageStatus where
  buildStatus : BuildStatus
  buildLog : String
deriving DecidableEq, Repr

/-- A package record, `fv1.Package`. -/
structure Package where
  metadata : ObjectMeta
  spec : PackageSpec
  status : PackageStatus
deriving DecidableEq, Repr

/-- The package reference held by a function, `fv1.PackageRef`. -/
structure PackageRef where
  name : String
  nspace : String
  resourceVersion : String
deriving DecidableEq, Repr

/-- A function record, `fv1.Function`; only the metadata and the package
reference (fn.Spec.Package.PackageRef) matter to this subsystem. -/
structure Function where
  metadata : ObjectMeta
  packageRef : PackageRef
deriving DecidableEq, Repr

/-- Embeds `updatePackage` from `src/unnamed/part_000` lines 168 to 215.
The `createArchive` effect (glob expansion, zipping and upload) is
abstracted as the function `ca` from the include-file list and the noZip
flag to the archive it yields; the result is the package value handed to
`client.PackageUpdate` (the remote store assigns the new resource version).
Setting the status writes a fresh `fv1.PackageStatus` whose BuildLog is the
Go zero value, the empty string. -/
def updatePackage (ca : List String → Bool → Archive) (pkg : Package)
    (envName envNamespace : String)
    (srcArchiveFiles deployArchiveFiles : List String)
    (buildcmd : String) (forceRebuild noZip : Bool) : Package :=
  let pkg := if envName.length > 0
    then { pkg with spec.environment.name := envName } else pkg
  let needToBuild : Bool := envName.length > 0
  let pkg := if envNamespace.length > 0
    then { pkg with spec.environment.nspace := envNamespace } else pkg
  let needToBuild : Bool := needToBuild || envNamespace.length > 0
  let pkg := if buildcmd.length > 0
    then { pkg with spec.buildCommand := buildcmd } else pkg
  let needToBuild : Bool := needToBuild || buildcmd.length > 0
  let pkg := if srcArchiveFiles.length > 0
    then { pkg with spec.source := ca srcArchiveFiles false } else pkg
  let needToBuild : Bool := needToBuild || srcArchiveFiles.length > 0
  let pkg := if deployArchiveFiles.length > 0
    then { pkg with spec.deployment := ca deployArchiveFiles noZip } else pkg
  let needToBuild : Bool := if deployArchiveFiles.length > 0 then false else needToBuild
  if needToBuild || forceRebuild
  then { pkg with status := { buildStatus := .BuildStatusPending, buildLog := "" } }
  else pkg

/-- External collaborators of the CLI, bundled as one record of pure
functions: glob expansion and `os.Stat` (pkg/utils, the OS), the zip
detector `archiver.Zip.Match`, the path of a freshly built archive
(`utils.MakeArchive` under a scratch directory; the random name suffix
carries no semantics and is folded into the abstract path), HTTP download
to a temp file (`DownloadToTempFile`), file size and contents, the
literal-size threshold `types.ArchiveLiteralSizeLimit`, the storage-service
upload and its externally reachable URL constructor, and the SHA-256
digest function of crypto/sha256 over a byte list. -/
structure ClientEnv where
  findAllGlobs : List String → List String
  statOk : String → Bool
  zipMatch : String → Bool
  madeArchivePath : List String → String
  downloadToTempFile : String → String
  fileSize : String → Nat
  contents : String → List Nat
  archiveLiteralSizeLimit : Nat
  uploadId : String → String
  storageSvcUrlFor : String → String
  sha256 : List Nat → List Nat

/-- Embeds the test `strings.HasPrefix(path, "http://") ||
strings.HasPrefix(path, "https://")` used throughout the source to
recognise URL inputs (written over the character lists so that the kernel
can evaluate it). -/
def isUrlInput (path : String) : Bool :=
  "http://".data.isPrefixOf path.data || "https://".data.isPrefixOf path.data

/-- Hex digit character for a value below 16, as in encoding/hex. -/
def hexDigit (n : Nat) : Char :=
  if n < 10 then Char.ofNat (48 + n) else Char.ofNat (97 + (n - 10))

/-- Hex encoding of one byte, low nibble last, as in encoding/hex. -/
def hexEncodeByte (b : Nat) : List Char :=
  [hexDigit (b / 16 % 16), hexDigit (b % 16)]

/-- Embeds `hex.EncodeToString` over a byte list. -/
def hexEncodeToString (bs : List Nat) : String :=
  String.mk (bs.map hexEncodeByte).flatten

/-- Embeds `FileChecksum` from
`src/pkg/fission-cli/cmd/package/package.go` lines 94 to 111: the SHA-256
digest of the file contents, hex encoded, tagged with the sha256 checksum
type. I/O errors of os.Open and io.Copy are not modelled (the environment
is total), so the result is the checksum itself. -/
def FileChecksum (env : ClientEnv) (fileName : String) : Checksum :=
  { type := ChecksumTypeSHA256
    sum := hexEncodeToString (env.sha256 (env.contents fileName)) }

/-- Result of `UploadArchive`: the archive plus flags recording whether
the remote interactions happened (a download of a URL input, an upload to
the storage service). -/
structure UploadResult where
  archive : Archive
  downloaded : Bool
  uploaded : Bool
deriving DecidableEq, Repr

/-- Embeds `UploadArchive` from
`src/pkg/fission-cli/cmd/package/package.go` lines 46 to 83. A fileName
beginning with an HTTP(S) scheme is first downloaded to a temp file; then
a file strictly below the literal-size limit becomes a Literal archive of
its bytes with no remote interaction, and any other file is uploaded to
the storage service, yielding a Url archive whose URL is built from the
externally reachable storage address and whose checksum is FileChecksum of
the same file. -/
def UploadArchive (env : ClientEnv) (fileName : String) : UploadResult :=
  let isUrl := isUrlInput fileName
  let fileName := if isUrl then env.downloadToTempFile fileName else fileName
  if env.fileSize fileName < env.archiveLiteralSizeLimit then
    { archive := { type := .literal, literal := env.contents fileName
                   url := "", checksum := none }
      downloaded := isUrl, uploaded := false }
  else
    let id := env.uploadId fileName
    let archiveURL := env.storageSvcUrlFor id
    { archive := { type := .url, literal := []
                   url := archiveURL, checksum := some (FileChecksum env fileName) }
      downloaded := isUrl, uploaded := true }

/-- Embeds `makeArchiveFileIfNeeded` from `src/unnamed/part_000` lines 586
to 627. The inputs are glob expanded; with exactly one resulting file, a
failing stat is fatal (error), an existing zip or the noZip preference
returns the file verbatim, and an HTTP(S) URL is returned unchanged; in
every other case a new archive is built from all the inputs under a
scratch directory (the hint only influences the abstracted archive name). -/
def makeArchiveFileIfNeeded (env : ClientEnv) (archiveNameHint : String)
    (archiveInput : List String) (noZip : Bool) : Except String String :=
  let _ := archiveNameHint
  match env.findAllGlobs archiveInput with
  | [f] =>
    if ¬ env.statOk f then
      .error ("open input file " ++ f)
    else if env.zipMatch f || noZip then
      .ok f
    else if isUrlInput f then
      .ok f
    else
      .ok (env.madeArchivePath archiveInput)
  | _ => .ok (env.madeArchivePath archiveInput)

/-- Embeds the upload branch of `createArchive` from
`src/unnamed/part_000` lines 459 to 516 (specFile empty; the declarative
spec branch is not modelled). Every non-URL input whose glob expansion is
empty is collected into a multierror that is fatal; otherwise the archive
file is prepared by makeArchiveFileIfNeeded and handed to UploadArchive. -/
def createArchive (env : ClientEnv) (includeFiles : List String)
    (noZip : Bool) : Except String UploadResult :=
  let missing := includeFiles.filter fun p =>
    !(isUrlInput p)
      && (env.findAllGlobs [p]).isEmpty
  if missing.isEmpty then
    match makeArchiveFileIfNeeded env "" includeFiles noZip with
    | .error e => .error e
    | .ok archivePath => .ok (UploadArchive env archivePath)
  else
    .error ("Error finding any files with path " ++ String.intercalate ", " missing)

/-- Embeds `pkgRebuild` from `src/unnamed/part_000` lines 427 to 453, after
the package has been fetched: a package not in the Failed state is a fatal
error (modelled as a some-error first component) and nothing is written
(the second component stays the fetched package); otherwise `updatePackage`
is invoked with forceRebuild set. -/
def pkgRebuild (ca : List String → Bool → Archive) (pkg : Package) :
    Option String × Package :=
  if pkg.status.buildStatus ≠ .BuildStatusFailed then
    (some ("Package " ++ pkg.metadata.name ++ " is not in failed state."), pkg)
  else
    (none, updatePackage ca pkg "" "" [] [] "" true false)

/-- Embeds `getFunctionsByPackage` from `src/unnamed/part_000` lines 50 to
62: list the functions of the package namespace
(`client.FunctionList(pkgNamespace)`, modelled as filtering the function
store by metadata namespace) and keep those whose package reference name
equals the package name. Note the reference namespace is not compared. -/
def getFunctionsByPackage (fns : List Function) (pkgName pkgNamespace : String) :
    List Function :=
  (fns.filter fun fn => fn.metadata.nspace = pkgNamespace).filter
    fun fn => fn.packageRef.name = pkgName

/-- Embeds `client.PackageGet`: the first package of the store with the
given name and namespace, if any. -/
def packageGet (pkgs : List Package) (name nspace : String) : Option Package :=
  pkgs.find? fun p => p.metadata.name = name ∧ p.metadata.nspace = nspace

/-- Embeds `deletePackage` from `src/unnamed/part_000` lines 371 to 376:
`client.PackageDelete` removes every record keyed by the name and
namespace from the store. -/
def deletePackage (pkgs : List Package) (pkgName pkgNamespace : String) :
    List Package :=
  pkgs.filter fun p => ¬ (p.metadata.name = pkgName ∧ p.metadata.nspace = pkgNamespace)

/-- The loop body of `deleteOrphanPkgs` (`src/unnamed/part_000` lines 357
to 367), recursing over the snapshot package list returned by
`client.PackageList(pkgNamespace)` while threading the live store: a
package with no referencing function is deleted, and a failing delete
(`deleteErr` gives the error of `client.PackageDelete` by package name)
returns that error at once, leaving the rest of the snapshot unprocessed. -/
def deleteOrphanLoop (fns : List Function) (pkgNamespace : String)
    (deleteErr : String → Option String) :
    List Package → List Package → List Package × Option String
  | store, [] => (store, none)
  | store, pkg :: rest =>
    if getFunctionsByPackage fns pkg.metadata.name pkgNamespace = [] then
      match deleteErr pkg.metadata.name with
      | some e => (store, some e)
      | none =>
        deleteOrphanLoop fns pkgNamespace deleteErr
          (deletePackage store pkg.metadata.name pkgNamespace) rest
    else
      deleteOrphanLoop fns pkgNamespace deleteErr store rest

/-- Embeds `deleteOrphanPkgs` from `src/unnamed/part_000` lines 351 to
369: enumerate the packages of the namespace and run the deletion loop
over that snapshot. The result is the final package store and the first
deletion error, if any. -/
def deleteOrphanPkgs (pkgs : List Package) (fns : List Function)
    (pkgNamespace : String) (deleteErr : String → Option String) :
    List Package × Option String :=
  deleteOrphanLoop fns pkgNamespace deleteErr pkgs
    (pkgs.filter fun p => p.metadata.nspace = pkgNamespace)

/-- Embeds `pkgDelete` from `src/unnamed/part_000` lines 378 to 425. The
first component is the error outcome (none models a nil return, and the
two flag-validation branches print a message and return nil while the
fatal branches are some); the second is the resulting package store. The
possible failure of `client.PackageDelete` is given by `deleteErr`. -/
def pkgDelete (pkgs : List Package) (fns : List Function)
    (pkgName pkgNamespace : String) (deleteOrphans force : Bool)
    (deleteErr : String → Option String) : Option String × List Package :=
  if pkgName.length = 0 && !deleteOrphans then
    (none, pkgs)
  else if pkgName.length ≠ 0 && deleteOrphans then
    (none, pkgs)
  else if pkgName.length ≠ 0 then
    match packageGet pkgs pkgName pkgNamespace with
    | none => (some "find package", pkgs)
    | some _ =>
      let fnList := getFunctionsByPackage fns pkgName pkgNamespace
      if !force && fnList.length > 0 then
        (some "Package is used by at least one function, use -f to force delete", pkgs)
      else
        match deleteErr pkgName with
        | some e => (some e, pkgs)
        | none => (none, deletePackage pkgs pkgName pkgNamespace)
  else
    let (st, err) := deleteOrphanPkgs pkgs fns pkgNamespace deleteErr
    (err, st)

/-- The package reference update applied to each function by the fan-out
loop of `pkgUpdate`: fn.Spec.Package.PackageRef.ResourceVersion is set to
the new resource version of the package. -/
def setPkgRefRv (rv : String) (fn : Function) : Function :=
  { fn with packageRef.resourceVersion := rv }

/-- Embeds the fan-out loop of `pkgUpdate` (`src/unnamed/part_000` lines
157 to 161) over the pre-update referencing-function list: each function
in turn gets the new resource version written into its package reference
and is sent to `client.FunctionUpdate` (whose error by function name is
`updErr`); `util.CheckErr` makes the first failure fatal, so the loop
stops there. The result is the list of function writes that were
persisted, the names of the functions attempted, and the first error. -/
def updateFunctionRefs (rv : String) (updErr : String → Option String) :
    List Function → List Function × List String × Option String
  | [] => ([], [], none)
  | fn :: rest =>
    match updErr fn.metadata.name with
    | some e => ([], [fn.metadata.name], some e)
    | none =>
      let (ws, att, err) := updateFunctionRefs rv updErr rest
      (setPkgRefRv rv fn :: ws, fn.metadata.name :: att, err)

/-- Applies a list of persisted function writes to the function store:
each write replaces the record with the same name and namespace. -/
def applyFnWrites (fns : List Function) (ws : List Function) : List Function :=
  ws.foldl
    (fun st w => st.map fun g =>
      if g.metadata.name = w.metadata.name ∧ g.metadata.nspace = w.metadata.nspace
      then w else g)
    fns

/-- Outcome of `pkgUpdate`: the first fatal error if any, the resulting
package and function stores, and the names of the functions the fan-out
attempted to update. -/
structure PkgUpdateOutcome where
  err : Option String
  packages : List Package
  functions : List Function
  attempted : List String
deriving DecidableEq, Repr

/-- Embeds `pkgUpdate` from `src/unnamed/part_000` lines 101 to 166:
argument validation (missing name, both archives, no update argument at
all), fetching the package, the treat-unchanged-environment-as-unspecified
filtering, the multiple-referencing-functions guard, the `updatePackage`
call (whose persisted write carries the fresh resource version `newRv`
assigned by the store), and the fan-out to the referencing functions.
Archive creation is abstracted as `ca`, and `updErr` gives the error of
`client.FunctionUpdate` by function name. -/
def pkgUpdate (ca : List String → Bool → Archive)
    (pkgs : List Package) (fns : List Function)
    (pkgName pkgNamespace : String) (force : Bool)
    (envName envNamespace : String)
    (srcArchiveFiles deployArchiveFiles : List String) (buildcmd : String)
    (newRv : String) (updErr : String → Option String) : PkgUpdateOutcome :=
  if pkgName.length = 0 then
    ⟨some "Need --name argument.", pkgs, fns, []⟩
  else if srcArchiveFiles.length > 0 && deployArchiveFiles.length > 0 then
    ⟨some "Need either of --src or --deploy and not both arguments.", pkgs, fns, []⟩
  else if srcArchiveFiles.length = 0 && deployArchiveFiles.length = 0
      && envName.length = 0 && buildcmd.length = 0 then
    ⟨some "Need --env or --src or --deploy or --buildcmd argument.", pkgs, fns, []⟩
  else
    match packageGet pkgs pkgName pkgNamespace with
    | none => ⟨some "get package", pkgs, fns, []⟩
    | some pkg =>
      let envName := if envName.length > 0 && envName = pkg.spec.environment.name
        then "" else envName
      let envNamespace := if envNamespace = pkg.spec.environment.nspace
        then "" else envNamespace
      let fnList := getFunctionsByPackage fns pkg.metadata.name pkg.metadata.nspace
      if !force && fnList.length > 1 then
        ⟨some "Package is used by multiple functions, use --force to force update",
          pkgs, fns, []⟩
      else
        let newPkg := updatePackage ca pkg envName envNamespace
          srcArchiveFiles deployArchiveFiles buildcmd false false
        let newPkg := { newPkg with metadata.resourceVersion := newRv }
        let pkgs := pkgs.map fun p =>
          if p.metadata.name = pkgName ∧ p.metadata.nspace = pkgNamespace
          then newPkg else p
        let (ws, att, ferr) := updateFunctionRefs newRv updErr fnList
        ⟨ferr, pkgs, applyFnWrites fns ws, att⟩

/-! Concrete fixtures used by counterexamples and witnesses. -/

/-- A small literal archive used as the output of the abstracted archive
creation in concrete scenarios. -/
def archC : Archive := { type := .literal, literal := [1, 2, 3], url := "", checksum := none }

/-- A concrete stand-in for the abstracted `createArchive` effect. -/
def caC : List String → Bool → Archive := fun _ _ => archC

/-- A package whose source build is still pending (as after a create with
a source archive). -/
def pkgPendingC : Package :=
  { metadata := { name := "p", nspace := "default", resourceVersion := "1" }
    spec := { environment := { name := "python", nspace := "default" }
              source := archC
              deployment := { type := .literal, literal := [], url := "", checksum := none }
              buildCommand := "" }
    status := { buildStatus := .BuildStatusPending, buildLog := "building" } }

/-- A package whose build has succeeded. -/
def pkgSucceededC : Package :=
  { metadata := { name := "q", nspace := "default", resourceVersion := "3" }
    spec := { environment := { name := "python", nspace := "default" }
              source := archC
              deployment := archC
              buildCommand := "build.sh" }
    status := { buildStatus := .BuildStatusSucceeded, buildLog := "ok" } }

/-- A concrete environment in which every file is small (3 bytes, below
the literal-size limit), globs pass inputs through unchanged, stat always
succeeds and nothing matches the zip format. -/
def envSmallC : ClientEnv :=
  { findAllGlobs := fun ps => ps
    statOk := fun _ => true
    zipMatch := fun _ => false
    madeArchivePath := fun _ => "/tmp/archive.zip"
    downloadToTempFile := fun _ => "/tmp/downloaded"
    fileSize := fun _ => 3
    contents := fun _ => [1, 2, 3]
    archiveLiteralSizeLimit := 262144
    uploadId := fun _ => "id1"
    storageSvcUrlFor := fun id => "http://storage/fission/" ++ id
    sha256 := fun bs => bs }

/-- The concrete environment envSmallC with every file above the
literal-size limit instead. -/
def envBigC : ClientEnv :=
  { envSmallC with fileSize := fun _ => 300000, archiveLiteralSizeLimit := 262144 }

/-- A concrete single-URL archive input. -/
def urlInputC : String := "https://example.com/a.zip"

/-- The concrete environment envSmallC with glob expansion that matches
nothing instead. -/
def envNoGlobC : ClientEnv := { envSmallC with findAllGlobs := fun _ => [] }

/-- A concrete function referencing the package named q in namespace
default. -/
def fnC : Function :=
  { metadata := { name := "fn1", nspace := "default", resourceVersion := "5" }
    packageRef := { name := "q", nspace := "default", resourceVersion := "3" } }

/-- A concrete function referencing the package named p, first in the
fan-out order. -/
def fn1C : Function :=
  { metadata := { name := "f1", nspace := "default", resourceVersion := "7" }
    packageRef := { name := "p", nspace := "default", resourceVersion := "1" } }

/-- A concrete function referencing the package named p, second in the
fan-out order. -/
def fn2C : Function :=
  { metadata := { name := "f2", nspace := "default", resourceVersion := "8" }
    packageRef := { name := "p", nspace := "default", resourceVersion := "1" } }

/-- A remote-store error model in which every write succeeds. -/
def derrNoneC : String → Option String := fun _ => none

/-- A FunctionUpdate error model in which updating the function named f1
fails and every other update succeeds. -/
def uerrC : String → Option String :=
  fun n => if n = "f1" then some "update function" else none

/-- A concrete orphan package (no function references the name oa). -/
def pkgOrphanAC : Package :=
  { metadata := { name := "oa", nspace := "default", resourceVersion := "1" }
    spec := { environment := { name := "python", nspace := "default" }
              source := archC
              deployment := archC
              buildCommand := "" }
    status := { buildStatus := .BuildStatusSucceeded, buildLog := "" } }

/-- A second concrete orphan package, enumerated after pkgOrphanAC. -/
def pkgOrphanBC : Package :=
  { metadata := { name := "ob", nspace := "default", resourceVersion := "2" }
    spec := { environment := { name := "python", nspace := "default" }
              source := archC
              deployment := archC
              buildCommand := "" }
    status := { buildStatus := .BuildStatusSucceeded, buildLog := "" } }

/-- A PackageDelete error model in which deleting the package named oa
fails and every other delete succeeds. -/
def derrFailAC : String → Option String :=
  fun n => if n = "oa" then some "delete failed" else none

end Fission

namespace Fission

/-- A nonempty string has positive length. -/
theorem length_pos_of_ne_empty {s : String} (h : s ≠ "") : 0 < s.length := by
  cases s with
  | mk data =>
    cases data with
    | nil => simp at h
    | cons c cs => simp [String.length]

/-- C1 counterexample: updating the already-Pending package `pkgPendingC`
with only a new deployment archive leaves buildStatus equal to Pending,
negating the claim that such an update always yields a status different
from Pending (the code does not reset the status, it merely refrains from
setting it). -/
theorem updatePackage_deployOnly_still_pending_cex :
    (updatePackage caC pkgPendingC "" "" [] ["a.zip"] "" false false).status.buildStatus
      = .BuildStatusPending := by decide

/-- C1 (amended): an update supplying only a new deployment archive (no
environment, build-command or source change, no forced rebuild) leaves the
whole status field unchanged, so buildStatus differs from Pending exactly
when it already did; an update supplying only a new source archive always
yields buildStatus Pending. -/
theorem updatePackage_deployOnly_keeps_status_srcOnly_pending
    (ca : List String → Bool → Archive) (pkg : Package)
    (srcFiles deployFiles : List String) (noZip : Bool) :
    (deployFiles ≠ [] →
      (updatePackage ca pkg "" "" [] deployFiles "" false noZip).status = pkg.status) ∧
    (srcFiles ≠ [] →
      (updatePackage ca pkg "" "" srcFiles [] "" false noZip).status.buildStatus
        = .BuildStatusPending) := by
  constructor
  · intro h
    simp [updatePackage, List.length_pos.mpr h, apply_ite Package.status]
  · intro h
    simp [updatePackage, List.length_pos.mpr h]

/-- C1 witness: the amended theorem applied to the concrete Pending
package, a deploy-only update and a source-only update. -/
theorem updatePackage_deployOnly_keeps_status_srcOnly_pending_witness :
    (updatePackage caC pkgPendingC "" "" [] ["a.zip"] "" false false).status
      = pkgPendingC.status ∧
    (updatePackage caC pkgPendingC "" "" ["s.py"] [] "" false false).status.buildStatus
      = .BuildStatusPending :=
  ⟨(updatePackage_deployOnly_keeps_status_srcOnly_pending caC pkgPendingC ["s.py"] ["a.zip"] false).1
      (by decide),
   (updatePackage_deployOnly_keeps_status_srcOnly_pending caC pkgPendingC ["s.py"] ["a.zip"] false).2
      (by decide)⟩

/-- C2 counterexample: updating `pkgSucceededC` with a changed environment
name together with a new deployment archive does not set buildStatus to
Pending (the deployment branch resets needToBuild to false), negating the
claim for the alongside-a-deployment-archive case. -/
theorem updatePackage_envChange_with_deploy_not_pending_cex :
    (updatePackage caC pkgSucceededC "go" "" [] ["a.zip"] "" false false).status.buildStatus
      ≠ .BuildStatusPending := by decide

/-- C2 (amended): with no forced rebuild, the persisted buildStatus is set
to Pending whenever any of environment name, environment namespace or
build command is supplied or a source archive is replaced AND no new
deployment archive is supplied in the same operation; when a new
deployment archive is supplied in the same operation, the status is left
exactly unchanged instead. -/
theorem updatePackage_pending_iff_change_without_deploy
    (ca : List String → Bool → Archive) (pkg : Package)
    (envName envNamespace buildcmd : String) (srcFiles deployFiles : List String)
    (noZip : Bool) :
    ((envName ≠ "" ∨ envNamespace ≠ "" ∨ buildcmd ≠ "" ∨ srcFiles ≠ []) →
      (updatePackage ca pkg envName envNamespace srcFiles [] buildcmd false noZip).status.buildStatus
        = .BuildStatusPending) ∧
    (deployFiles ≠ [] →
      (updatePackage ca pkg envName envNamespace srcFiles deployFiles buildcmd false noZip).status
        = pkg.status) := by
  constructor
  · rintro (h | h | h | h)
    · simp [updatePackage, length_pos_of_ne_empty h]
    · simp [updatePackage, length_pos_of_ne_empty h]
    · simp [updatePackage, length_pos_of_ne_empty h]
    · simp [updatePackage, List.length_pos.mpr h]
  · intro h
    simp [updatePackage, List.length_pos.mpr h, apply_ite Package.status]

/-- C2 witness: the amended theorem applied to the concrete Succeeded
package with a changed environment name, once without and once with a new
deployment archive. -/
theorem updatePackage_pending_iff_change_without_deploy_witness :
    (updatePackage caC pkgSucceededC "go" "" [] [] "" false false).status.buildStatus
      = .BuildStatusPending ∧
    (updatePackage caC pkgSucceededC "go" "" [] ["a.zip"] "" false false).status
      = pkgSucceededC.status :=
  ⟨(updatePackage_pending_iff_change_without_deploy caC pkgSucceededC "go" "" "" [] ["a.zip"] false).1
      (Or.inl (by decide)),
   (updatePackage_pending_iff_change_without_deploy caC pkgSucceededC "go" "" "" [] ["a.zip"] false).2
      (by decide)⟩

/-- C4: pkgRebuild succeeds exactly when the current buildStatus is
Failed, in which case the persisted package has buildStatus Pending; for
any other current status it reports a state error and the package record
is unchanged. -/
theorem pkgRebuild_pending_iff_failed
    (ca : List String → Bool → Archive) (pkg : Package) :
    ((pkgRebuild ca pkg).1 = none ↔ pkg.status.buildStatus = .BuildStatusFailed) ∧
    ((pkgRebuild ca pkg).2.status.buildStatus =
      if pkg.status.buildStatus = .BuildStatusFailed
      then .BuildStatusPending else pkg.status.buildStatus) ∧
    (pkg.status.buildStatus ≠ .BuildStatusFailed → (pkgRebuild ca pkg).2 = pkg) := by
  by_cases h : pkg.status.buildStatus = .BuildStatusFailed <;>
    simp [pkgRebuild, h, updatePackage]

/-- C4 witness: the theorem applied to the concrete Succeeded package,
whose rebuild is rejected and left unchanged. -/
theorem pkgRebuild_pending_iff_failed_witness :
    (pkgRebuild caC pkgSucceededC).2 = pkgSucceededC ∧
    pkgSucceededC.status.buildStatus ≠ .BuildStatusFailed :=
  ⟨(pkgRebuild_pending_iff_failed caC pkgSucceededC).2.2 (by decide), by decide⟩

/-- C10: an update that supplies no environment name, no environment
namespace, no build command and no source archive, with forceRebuild
false, leaves the entire status field (buildStatus and buildLog) and every
unsupplied spec field exactly as they were; only the deployment archive is
replaced and only when one is supplied. -/
theorem updatePackage_frame_no_rebuild_trigger
    (ca : List String → Bool → Archive) (pkg : Package)
    (deployFiles : List String) (noZip : Bool) :
    (updatePackage ca pkg "" "" [] deployFiles "" false noZip).status = pkg.status ∧
    (updatePackage ca pkg "" "" [] deployFiles "" false noZip).spec.environment
      = pkg.spec.environment ∧
    (updatePackage ca pkg "" "" [] deployFiles "" false noZip).spec.buildCommand
      = pkg.spec.buildCommand ∧
    (updatePackage ca pkg "" "" [] deployFiles "" false noZip).spec.source
      = pkg.spec.source ∧
    (updatePackage ca pkg "" "" [] deployFiles "" false noZip).spec.deployment
      = (if deployFiles.isEmpty then pkg.spec.deployment else ca deployFiles noZip) ∧
    (updatePackage ca pkg "" "" [] deployFiles "" false noZip).metadata = pkg.metadata := by
  rcases deployFiles with _ | ⟨d, ds⟩ <;> simp [updatePackage]

/-- C5: storing a local (non-URL) file through UploadArchive yields a
Literal archive holding exactly the file bytes, with no checksum and no
remote interaction, when the file size is strictly below the literal-size
limit; otherwise it uploads and yields a Url archive whose checksum is the
SHA-256 hex digest of the same file bytes, as computed by FileChecksum. -/
theorem UploadArchive_literal_below_limit_else_url_checksum
    (env : ClientEnv) (fileName : String)
    (h : isUrlInput fileName = false) :
    (env.fileSize fileName < env.archiveLiteralSizeLimit →
      (UploadArchive env fileName).archive.type = .literal ∧
      (UploadArchive env fileName).archive.literal = env.contents fileName ∧
      (UploadArchive env fileName).archive.checksum = none ∧
      (UploadArchive env fileName).downloaded = false ∧
      (UploadArchive env fileName).uploaded = false) ∧
    (¬ env.fileSize fileName < env.archiveLiteralSizeLimit →
      (UploadArchive env fileName).archive.type = .url ∧
      (UploadArchive env fileName).uploaded = true ∧
      (UploadArchive env fileName).downloaded = false ∧
      (UploadArchive env fileName).archive.checksum
        = some { type := ChecksumTypeSHA256
                 sum := hexEncodeToString (env.sha256 (env.contents fileName)) }) := by
  constructor
  · intro hs
    simp [UploadArchive, h, hs]
  · intro hs
    simp [UploadArchive, FileChecksum, h, hs]

/-- C5 witness: the theorem applied to a small local file (Literal bytes,
no upload) and to a large local file (Url archive with the SHA-256
checksum of the same bytes). -/
theorem UploadArchive_literal_below_limit_else_url_checksum_witness :
    (isUrlInput "small.zip" = false ∧
      envSmallC.fileSize "small.zip" < envSmallC.archiveLiteralSizeLimit ∧
      (UploadArchive envSmallC "small.zip").archive.literal = envSmallC.contents "small.zip" ∧
      (UploadArchive envSmallC "small.zip").uploaded = false) ∧
    (¬ envBigC.fileSize "big.zip" < envBigC.archiveLiteralSizeLimit ∧
      (UploadArchive envBigC "big.zip").archive.checksum
        = some { type := ChecksumTypeSHA256
                 sum := hexEncodeToString (envBigC.sha256 (envBigC.contents "big.zip")) }) :=
  ⟨⟨by decide, by decide,
    ((UploadArchive_literal_below_limit_else_url_checksum envSmallC "small.zip"
        (by decide)).1 (by decide)).2.1,
    ((UploadArchive_literal_below_limit_else_url_checksum envSmallC "small.zip"
        (by decide)).1 (by decide)).2.2.2.2⟩,
   ⟨by decide, ((UploadArchive_literal_below_limit_else_url_checksum envBigC "big.zip"
        (by decide)).2 (by decide)).2.2.2⟩⟩

/-- C3 counterexample: feeding the single URL input urlInputC through
createArchive in the concrete environment envSmallC yields a Literal
archive of the downloaded bytes with the downloaded flag set — not the
claimed pass-through Url archive carrying the input as its location with
no checksum and no download. -/
theorem createArchive_single_url_literal_download_cex :
    createArchive envSmallC [urlInputC] false
      = .ok { archive := { type := .literal, literal := [1, 2, 3], url := "", checksum := none }
              downloaded := true
              uploaded := false } := rfl

/-- C3 (amended): a single HTTP(S) URL input is never glob-bundled by
makeArchiveFileIfNeeded — provided glob expansion passes the URL through
and stat accepts it, the URL reaches UploadArchive unchanged — but
UploadArchive then downloads the content to a temp file and stores it like
a local file, so the resulting archive is a Literal of the downloaded
bytes or a storage-service URL with a checksum, never the input URL
without a checksum. -/
theorem createArchive_single_url_downloads_and_stores
    (env : ClientEnv) (url : String)
    (hu : isUrlInput url = true)
    (hg : env.findAllGlobs [url] = [url])
    (hs : env.statOk url = true)
    (hz : env.zipMatch url = false) :
    createArchive env [url] false = .ok (UploadArchive env url) ∧
    (UploadArchive env url).downloaded = true ∧
    ((UploadArchive env url).archive.type = .literal ∨
      ((UploadArchive env url).archive.checksum).isSome = true) := by
  refine ⟨?_, ?_, ?_⟩
  · simp [createArchive, makeArchiveFileIfNeeded, hu, hg, hs, hz]
  · by_cases hsz : env.fileSize (env.downloadToTempFile url) < env.archiveLiteralSizeLimit <;>
      simp [UploadArchive, hu, hsz]
  · by_cases hsz : env.fileSize (env.downloadToTempFile url) < env.archiveLiteralSizeLimit <;>
      simp [UploadArchive, hu, hsz]

/-- C3 witness: the amended theorem applied to the concrete URL input in
the small-file environment. -/
theorem createArchive_single_url_downloads_and_stores_witness :
    createArchive envSmallC [urlInputC] false = .ok (UploadArchive envSmallC urlInputC) ∧
    (UploadArchive envSmallC urlInputC).downloaded = true ∧
    ((UploadArchive envSmallC urlInputC).archive.type = .literal ∨
      ((UploadArchive envSmallC urlInputC).archive.checksum).isSome = true) :=
  createArchive_single_url_downloads_and_stores envSmallC urlInputC
    (by decide) (by decide) (by decide) (by decide)

/-- C6 counterexample: a forced pkgUpdate on the package p referenced by
the two functions f1 and f2, where updating f1 fails, stops fatally at f1:
the function store is completely unchanged (f2 still carries the old
resource version 1, not the new version 2) and only f1 was attempted, so
no per-function failure is surfaced for f2 and f2 is never attempted —
negating the claim. -/
theorem pkgUpdate_fanout_stops_first_failure_cex :
    (pkgUpdate caC [pkgPendingC] [fn1C, fn2C] "p" "default" true "" ""
        [] ["a.zip"] "" "2" uerrC).err = some "update function" ∧
    (pkgUpdate caC [pkgPendingC] [fn1C, fn2C] "p" "default" true "" ""
        [] ["a.zip"] "" "2" uerrC).functions = [fn1C, fn2C] ∧
    (pkgUpdate caC [pkgPendingC] [fn1C, fn2C] "p" "default" true "" ""
        [] ["a.zip"] "" "2" uerrC).attempted = ["f1"] := by decide

/-- C6 (amended): the post-update fan-out walks the pre-update referencing
functions in order; when every function update succeeds, every function is
written back with the new resource version in its package reference; at
the first failing function update the loop halts fatally, having persisted
exactly the functions before the failure, attempted nothing after it, and
reporting only that first failure. -/
theorem updateFunctionRefs_success_and_failfast
    (rv : String) (updErr : String → Option String) :
    (∀ fnList : List Function, (∀ g ∈ fnList, updErr g.metadata.name = none) →
      updateFunctionRefs rv updErr fnList
        = (fnList.map (setPkgRefRv rv), fnList.map (fun g => g.metadata.name), none)) ∧
    (∀ (pre : List Function) (f : Function) (post : List Function) (e : String),
      (∀ g ∈ pre, updErr g.metadata.name = none) →
      updErr f.metadata.name = some e →
      updateFunctionRefs rv updErr (pre ++ f :: post)
        = (pre.map (setPkgRefRv rv),
           pre.map (fun g => g.metadata.name) ++ [f.metadata.name], some e)) := by
  constructor
  · intro fnList h
    induction fnList with
    | nil => simp [updateFunctionRefs]
    | cons fn rest ih =>
      have hfn : updErr fn.metadata.name = none := h fn (by simp)
      have hrest := ih fun g hg => h g (by simp [hg])
      simp [updateFunctionRefs, hfn, hrest]
  · intro pre f post e hpre hf
    induction pre with
    | nil => simp [updateFunctionRefs, hf]
    | cons g rest ih =>
      have hg : updErr g.metadata.name = none := hpre g (by simp)
      have hrest := ih fun g' hg' => hpre g' (by simp [hg'])
      simp [updateFunctionRefs, hg, hrest]

/-- C6 witness: the amended theorem applied to concrete fan-out lists, one
fully successful and one halting at the failing function f1. -/
theorem updateFunctionRefs_success_and_failfast_witness :
    updateFunctionRefs "2" uerrC [fn2C]
      = ([setPkgRefRv "2" fn2C], ["f2"], none) ∧
    updateFunctionRefs "2" uerrC [fn2C, fn1C]
      = ([setPkgRefRv "2" fn2C], ["f2", "f1"], some "update function") :=
  ⟨by simpa using (updateFunctionRefs_success_and_failfast "2" uerrC).1 [fn2C] (by decide),
   by
     simpa using (updateFunctionRefs_success_and_failfast "2" uerrC).2
       [fn2C] fn1C [] "update function" (by decide) (by decide)⟩

/-- C7: for an existing package whose storage-level delete succeeds,
pkgDelete without force fails (some error) and leaves the store untouched
whenever at least one function references the package, while pkgDelete
with force returns nil and afterwards no record with that name and
namespace remains in the store, regardless of referencing functions. -/
theorem pkgDelete_refuses_referenced_unless_forced
    (pkgs : List Package) (fns : List Function)
    (pkgName pkgNamespace : String) (deleteErr : String → Option String)
    (hname : pkgName ≠ "")
    (hex : (packageGet pkgs pkgName pkgNamespace).isSome = true)
    (hdel : deleteErr pkgName = none) :
    (getFunctionsByPackage fns pkgName pkgNamespace ≠ [] →
      ((pkgDelete pkgs fns pkgName pkgNamespace false false deleteErr).1.isSome = true ∧
       (pkgDelete pkgs fns pkgName pkgNamespace false false deleteErr).2 = pkgs)) ∧
    ((pkgDelete pkgs fns pkgName pkgNamespace false true deleteErr).1 = none ∧
     (pkgDelete pkgs fns pkgName pkgNamespace false true deleteErr).2
       = deletePackage pkgs pkgName pkgNamespace ∧
     ∀ p ∈ (pkgDelete pkgs fns pkgName pkgNamespace false true deleteErr).2,
       ¬ (p.metadata.name = pkgName ∧ p.metadata.nspace = pkgNamespace)) := by
  have hlen : pkgName.length ≠ 0 := (length_pos_of_ne_empty hname).ne'
  obtain ⟨pkg, hp⟩ := Option.isSome_iff_exists.mp hex
  constructor
  · intro href
    have hlenfn : 0 < (getFunctionsByPackage fns pkgName pkgNamespace).length :=
      List.length_pos.mpr href
    constructor
    · simp [pkgDelete, hlen, hp, hlenfn]
    · simp [pkgDelete, hlen, hp, hlenfn]
  · refine ⟨?_, ?_, ?_⟩
    · simp [pkgDelete, hlen, hp, hdel]
    · simp [pkgDelete, hlen, hp, hdel]
    · intro p hmem
      simp [pkgDelete, hlen, hp, hdel, deletePackage, List.mem_filter] at hmem
      tauto

/-- C7 witness: the theorem applied to a store holding the package q
referenced by the function fn1: the unforced delete is refused with the
store unchanged, the forced delete succeeds and removes the record. -/
theorem pkgDelete_refuses_referenced_unless_forced_witness :
    ("q" ≠ "" ∧ (packageGet [pkgSucceededC] "q" "default").isSome = true ∧
      derrNoneC "q" = none ∧ getFunctionsByPackage [fnC] "q" "default" ≠ []) ∧
    ((pkgDelete [pkgSucceededC] [fnC] "q" "default" false false derrNoneC).1.isSome = true ∧
     (pkgDelete [pkgSucceededC] [fnC] "q" "default" false false derrNoneC).2 = [pkgSucceededC]) ∧
    ((pkgDelete [pkgSucceededC] [fnC] "q" "default" false true derrNoneC).1 = none ∧
     (pkgDelete [pkgSucceededC] [fnC] "q" "default" false true derrNoneC).2
       = deletePackage [pkgSucceededC] "q" "default") :=
  ⟨⟨by decide, by decide, by decide, by decide⟩,
   (pkgDelete_refuses_referenced_unless_forced [pkgSucceededC] [fnC] "q" "default" derrNoneC
      (by decide) (by decide) (by decide)).1 (by decide),
   ⟨(pkgDelete_refuses_referenced_unless_forced [pkgSucceededC] [fnC] "q" "default" derrNoneC
      (by decide) (by decide) (by decide)).2.1,
    (pkgDelete_refuses_referenced_unless_forced [pkgSucceededC] [fnC] "q" "default" derrNoneC
      (by decide) (by decide) (by decide)).2.2.1⟩⟩

/-- The final store of the orphan sweep loop only ever shrinks: every
surviving record was already in the starting store. -/
theorem deleteOrphanLoop_subset (fns : List Function) (ns : String)
    (derr : String → Option String) (enum : List Package) :
    ∀ (store : List Package) (x : Package),
      x ∈ (deleteOrphanLoop fns ns derr store enum).1 → x ∈ store := by
  induction enum with
  | nil => intro store x hx; simpa [deleteOrphanLoop] using hx
  | cons pkg rest ih =>
    intro store x hx
    by_cases hq : getFunctionsByPackage fns pkg.metadata.name ns = []
    · cases hderr : derr pkg.metadata.name with
      | some e => simpa [deleteOrphanLoop, hq, hderr] using hx
      | none =>
        have hx' := ih (deletePackage store pkg.metadata.name ns)
          x (by simpa [deleteOrphanLoop, hq, hderr] using hx)
        simp only [deletePackage] at hx'
        exact List.mem_of_mem_filter hx'
    · exact ih store x (by simpa [deleteOrphanLoop, hq] using hx)

/-- A package referenced by at least one function survives the orphan
sweep loop: deletions are only issued for names whose reference check is
empty, and the check depends only on the name. -/
theorem deleteOrphanLoop_keeps_referenced (fns : List Function) (ns : String)
    (derr : String → Option String) (enum : List Package) :
    ∀ (store : List Package) (p : Package), p ∈ store →
      getFunctionsByPackage fns p.metadata.name ns ≠ [] →
      p ∈ (deleteOrphanLoop fns ns derr store enum).1 := by
  induction enum with
  | nil => intro store p hp _; simpa [deleteOrphanLoop] using hp
  | cons pkg rest ih =>
    intro store p hp href
    by_cases hq : getFunctionsByPackage fns pkg.metadata.name ns = []
    · cases hderr : derr pkg.metadata.name with
      | some e => simpa [deleteOrphanLoop, hq, hderr] using hp
      | none =>
        have hp' : p ∈ deletePackage store pkg.metadata.name ns := by
          simp only [deletePackage]
          refine List.mem_filter.mpr ⟨hp, ?_⟩
          simp only [decide_eq_true_eq]
          rintro ⟨h1, h2⟩
          exact href (h1 ▸ hq)
        have := ih (deletePackage store pkg.metadata.name ns) p hp' href
        simpa [deleteOrphanLoop, hq, hderr] using this
    · have := ih store p hp href
      simpa [deleteOrphanLoop, hq] using this

/-- When every orphan delete in the enumeration succeeds, the sweep loop
reports no error and every enumerated orphan of the namespace is gone from
the final store. -/
theorem deleteOrphanLoop_success (fns : List Function) (ns : String)
    (derr : String → Option String) (enum : List Package) :
    ∀ store : List Package,
      (∀ q ∈ enum, getFunctionsByPackage fns q.metadata.name ns = [] →
        derr q.metadata.name = none) →
      (deleteOrphanLoop fns ns derr store enum).2 = none ∧
      ∀ q ∈ enum, q.metadata.nspace = ns →
        getFunctionsByPackage fns q.metadata.name ns = [] →
        q ∉ (deleteOrphanLoop fns ns derr store enum).1 := by
  induction enum with
  | nil => intro store _; simp [deleteOrphanLoop]
  | cons pkg rest ih =>
    intro store hsucc
    by_cases hq : getFunctionsByPackage fns pkg.metadata.name ns = []
    · have hderr : derr pkg.metadata.name = none := hsucc pkg (by simp) hq
      obtain ⟨ih1, ih2⟩ := ih (deletePackage store pkg.metadata.name ns)
        (fun q hqmem h => hsucc q (by simp [hqmem]) h)
      refine ⟨by simpa [deleteOrphanLoop, hq, hderr] using ih1, ?_⟩
      intro q hqmem hns horph
      rcases List.mem_cons.mp hqmem with hq1 | hq2
      · subst hq1
        intro hin
        have hin' : q ∈ deletePackage store q.metadata.name ns := by
          have := deleteOrphanLoop_subset fns ns derr rest
            (deletePackage store q.metadata.name ns) q
            (by simpa [deleteOrphanLoop, hq, hderr] using hin)
          exact this
        simp [deletePackage, List.mem_filter, hns] at hin'
      · have := ih2 q hq2 hns horph
        intro hin
        exact this (by simpa [deleteOrphanLoop, hq, hderr] using hin)
    · obtain ⟨ih1, ih2⟩ := ih store (fun q hqmem h => hsucc q (by simp [hqmem]) h)
      refine ⟨by simpa [deleteOrphanLoop, hq] using ih1, ?_⟩
      intro q hqmem hns horph
      rcases List.mem_cons.mp hqmem with hq1 | hq2
      · subst hq1; exact absurd horph hq
      · have := ih2 q hq2 hns horph
        intro hin
        exact this (by simpa [deleteOrphanLoop, hq] using hin)

/-- When all earlier orphan deletes succeed and the delete of orphan o
fails, the sweep loop stops exactly there: the first error is returned and
every later enumerated package (of a name untouched so far) is still in
the final store. -/
theorem deleteOrphanLoop_failfast (fns : List Function) (ns : String)
    (derr : String → Option String) (o : Package) (post : List Package) (e : String)
    (ho : getFunctionsByPackage fns o.metadata.name ns = [])
    (he : derr o.metadata.name = some e) :
    ∀ (pre store : List Package),
      (∀ r ∈ pre, getFunctionsByPackage fns r.metadata.name ns = [] →
        derr r.metadata.name = none) →
      (∀ q ∈ post, ∀ r ∈ pre, q.metadata.name ≠ r.metadata.name) →
      (deleteOrphanLoop fns ns derr store (pre ++ o :: post)).2 = some e ∧
      ∀ q ∈ post, q ∈ store →
        q ∈ (deleteOrphanLoop fns ns derr store (pre ++ o :: post)).1 := by
  intro pre
  induction pre with
  | nil =>
    intro store _ _
    constructor
    · simp [deleteOrphanLoop, ho, he]
    · intro q _ hqst
      simpa [deleteOrphanLoop, ho, he] using hqst
  | cons r pre' ih =>
    intro store hpre hdist
    by_cases hr : getFunctionsByPackage fns r.metadata.name ns = []
    · have hdr : derr r.metadata.name = none := hpre r (by simp) hr
      obtain ⟨ih1, ih2⟩ := ih (deletePackage store r.metadata.name ns)
        (fun r' hr' h => hpre r' (by simp [hr']) h)
        (fun q hq r' hr' => hdist q hq r' (by simp [hr']))
      refine ⟨by simpa [deleteOrphanLoop, hr, hdr] using ih1, ?_⟩
      intro q hqpost hqst
      have hq' : q ∈ deletePackage store r.metadata.name ns := by
        simp only [deletePackage]
        refine List.mem_filter.mpr ⟨hqst, ?_⟩
        simp only [decide_eq_true_eq]
        rintro ⟨h1, _⟩
        exact hdist q hqpost r (by simp) h1
      have := ih2 q hqpost hq'
      simpa [deleteOrphanLoop, hr, hdr] using this
    · obtain ⟨ih1, ih2⟩ := ih store
        (fun r' hr' h => hpre r' (by simp [hr']) h)
        (fun q hq r' hr' => hdist q hq r' (by simp [hr']))
      refine ⟨by simpa [deleteOrphanLoop, hr] using ih1, ?_⟩
      intro q hqpost hqst
      have := ih2 q hqpost hqst
      simpa [deleteOrphanLoop, hr] using this

/-- C8: the orphan sweep deletes only packages with zero referencing
functions (every referenced package survives); when every orphan delete
succeeds the sweep reports no error and every orphan of the namespace is
gone; and when the delete of an orphan o fails after all earlier orphan
deletes succeeded, the sweep stops at that first failure, returns its
error, and every package enumerated after o (with a name distinct from the
earlier ones) is left undeleted. -/
theorem deleteOrphanPkgs_orphans_only_failfast
    (pkgs : List Package) (fns : List Function) (ns : String)
    (derr : String → Option String) :
    (∀ p ∈ pkgs, getFunctionsByPackage fns p.metadata.name ns ≠ [] →
      p ∈ (deleteOrphanPkgs pkgs fns ns derr).1) ∧
    ((∀ q ∈ pkgs, q.metadata.nspace = ns →
        getFunctionsByPackage fns q.metadata.name ns = [] → derr q.metadata.name = none) →
      (deleteOrphanPkgs pkgs fns ns derr).2 = none ∧
      ∀ q ∈ pkgs, q.metadata.nspace = ns →
        getFunctionsByPackage fns q.metadata.name ns = [] →
        q ∉ (deleteOrphanPkgs pkgs fns ns derr).1) ∧
    (∀ (pre : List Package) (o : Package) (post : List Package) (e : String),
      pkgs.filter (fun p => p.metadata.nspace = ns) = pre ++ o :: post →
      (∀ r ∈ pre, getFunctionsByPackage fns r.metadata.name ns = [] →
        derr r.metadata.name = none) →
      getFunctionsByPackage fns o.metadata.name ns = [] →
      derr o.metadata.name = some e →
      (∀ q ∈ post, ∀ r ∈ pre, q.metadata.name ≠ r.metadata.name) →
      (deleteOrphanPkgs pkgs fns ns derr).2 = some e ∧
      ∀ q ∈ post, q ∈ (deleteOrphanPkgs pkgs fns ns derr).1) := by
  refine ⟨?_, ?_, ?_⟩
  · intro p hp href
    exact deleteOrphanLoop_keeps_referenced fns ns derr _ pkgs p hp href
  · intro hsucc
    have h := deleteOrphanLoop_success fns ns derr
      (pkgs.filter fun p => p.metadata.nspace = ns) pkgs
      (fun q hq horph => hsucc q (List.mem_of_mem_filter hq)
        (by simpa using (List.mem_filter.mp hq).2) horph)
    refine ⟨h.1, ?_⟩
    intro q hq hns horph
    exact h.2 q (List.mem_filter.mpr ⟨hq, by simpa using hns⟩) hns horph
  · intro pre o post e hsplit hpre ho he hdist
    have h := deleteOrphanLoop_failfast fns ns derr o post e ho he pre pkgs hpre hdist
    rw [deleteOrphanPkgs, hsplit]
    refine ⟨h.1, ?_⟩
    intro q hq
    have hqpkgs : q ∈ pkgs := by
      have : q ∈ pkgs.filter fun p => p.metadata.nspace = ns := by
        rw [hsplit]; simp [hq]
      exact List.mem_of_mem_filter this
    exact h.2 q hq hqpkgs

/-- C8 witness: the theorem applied to a store holding the referenced
package q and the orphans oa and ob. With all deletes succeeding, q
survives, the sweep reports no error and oa is gone; with the delete of oa
failing, the failure is reported and ob is left undeleted. -/
theorem deleteOrphanPkgs_orphans_only_failfast_witness :
    (pkgSucceededC ∈ (deleteOrphanPkgs [pkgSucceededC, pkgOrphanAC, pkgOrphanBC] [fnC]
        "default" derrNoneC).1 ∧
     (deleteOrphanPkgs [pkgSucceededC, pkgOrphanAC, pkgOrphanBC] [fnC]
        "default" derrNoneC).2 = none ∧
     pkgOrphanAC ∉ (deleteOrphanPkgs [pkgSucceededC, pkgOrphanAC, pkgOrphanBC] [fnC]
        "default" derrNoneC).1) ∧
    ((deleteOrphanPkgs [pkgSucceededC, pkgOrphanAC, pkgOrphanBC] [fnC]
        "default" derrFailAC).2 = some "delete failed" ∧
     pkgOrphanBC ∈ (deleteOrphanPkgs [pkgSucceededC, pkgOrphanAC, pkgOrphanBC] [fnC]
        "default" derrFailAC).1) :=
  ⟨⟨(deleteOrphanPkgs_orphans_only_failfast [pkgSucceededC, pkgOrphanAC, pkgOrphanBC] [fnC]
      "default" derrNoneC).1 pkgSucceededC (by decide) (by decide),
    ((deleteOrphanPkgs_orphans_only_failfast [pkgSucceededC, pkgOrphanAC, pkgOrphanBC] [fnC]
      "default" derrNoneC).2.1 (by decide)).1,
    ((deleteOrphanPkgs_orphans_only_failfast [pkgSucceededC, pkgOrphanAC, pkgOrphanBC] [fnC]
      "default" derrNoneC).2.1 (by decide)).2 pkgOrphanAC (by decide) (by decide) (by decide)⟩,
   ⟨((deleteOrphanPkgs_orphans_only_failfast [pkgSucceededC, pkgOrphanAC, pkgOrphanBC] [fnC]
      "default" derrFailAC).2.2 [pkgSucceededC] pkgOrphanAC [pkgOrphanBC] "delete failed"
      (by decide) (by decide) (by decide) (by decide) (by decide)).1,
    ((deleteOrphanPkgs_orphans_only_failfast [pkgSucceededC, pkgOrphanAC, pkgOrphanBC] [fnC]
      "default" derrFailAC).2.2 [pkgSucceededC] pkgOrphanAC [pkgOrphanBC] "delete failed"
      (by decide) (by decide) (by decide) (by decide) (by decide)).2
      pkgOrphanBC (by decide)⟩⟩

/-- C9 counterexample: pkgDelete called with both a package name and the
orphan flag — the conflicting mutually-exclusive flags of the claim —
prints a message and returns nil with the store untouched: the operation
returns success, negating the claim that every input error fails fatally
and never returns success. -/
theorem pkgDelete_conflicting_flags_returns_success_cex :
    pkgDelete [pkgSucceededC] [fnC] "q" "default" true false derrNoneC
      = (none, [pkgSucceededC]) := rfl

/-- C9 (amended): no input error ever creates, mutates or deletes a
record, but the failure mode differs by operation: the two pkgDelete flag
errors (neither name nor orphan given, or both given) merely print and
return success with the store unchanged, while a zero-glob non-URL input
makes createArchive fatal before any upload, and pkgUpdate is fatal with
both stores unchanged on a missing name or on supplying both a source and
a deployment archive. -/
theorem inputErrors_touch_no_record
    (ca : List String → Bool → Archive)
    (env : ClientEnv) (pkgs : List Package) (fns : List Function)
    (pkgName pkgNamespace : String) (force : Bool)
    (envName envNamespace : String) (srcFiles deployFiles files : List String)
    (buildcmd newRv : String) (updErr deleteErr : String → Option String)
    (noZip : Bool) (p : String) :
    (pkgDelete pkgs fns "" pkgNamespace false force deleteErr = (none, pkgs)) ∧
    (pkgName ≠ "" →
      pkgDelete pkgs fns pkgName pkgNamespace true force deleteErr = (none, pkgs)) ∧
    (p ∈ files → isUrlInput p = false → env.findAllGlobs [p] = [] →
      createArchive env files noZip
        = .error ("Error finding any files with path " ++ String.intercalate ", "
            (files.filter fun q => !(isUrlInput q) && (env.findAllGlobs [q]).isEmpty))) ∧
    (pkgUpdate ca pkgs fns "" pkgNamespace force envName envNamespace
        srcFiles deployFiles buildcmd newRv updErr
      = ⟨some "Need --name argument.", pkgs, fns, []⟩) ∧
    (srcFiles ≠ [] → deployFiles ≠ [] → pkgName ≠ "" →
      pkgUpdate ca pkgs fns pkgName pkgNamespace force envName envNamespace
          srcFiles deployFiles buildcmd newRv updErr
        = ⟨some "Need either of --src or --deploy and not both arguments.", pkgs, fns, []⟩) := by
  refine ⟨?_, ?_, ?_, ?_, ?_⟩
  · simp [pkgDelete]
  · intro h
    have hlen : pkgName.length ≠ 0 := (length_pos_of_ne_empty h).ne'
    simp [pkgDelete, hlen]
  · intro hmem hurl hglob
    have hne : ¬ (files.filter fun q => !(isUrlInput q) && (env.findAllGlobs [q]).isEmpty).isEmpty := by
      simp [List.isEmpty_iff, List.filter_eq_nil_iff]
      exact ⟨p, hmem, by simp [hurl, hglob]⟩
    simp [createArchive, hne]
  · simp [pkgUpdate]
  · intro hs hd hn
    have hslen : 0 < srcFiles.length := List.length_pos.mpr hs
    have hdlen : 0 < deployFiles.length := List.length_pos.mpr hd
    have hnlen : pkgName.length ≠ 0 := (length_pos_of_ne_empty hn).ne'
    simp [pkgUpdate, hslen, hdlen, hnlen]

/-- C9 witness: the amended theorem applied at concrete inputs — the two
silent pkgDelete flag errors, a zero-glob createArchive input and the two
fatal pkgUpdate validation errors. -/
theorem inputErrors_touch_no_record_witness :
    (pkgDelete [pkgSucceededC] [fnC] "" "default" false false derrNoneC
      = (none, [pkgSucceededC])) ∧
    (pkgDelete [pkgSucceededC] [fnC] "q" "default" true false derrNoneC
      = (none, [pkgSucceededC])) ∧
    (createArchive envNoGlobC ["missing.py"] false
      = .error ("Error finding any files with path " ++ String.intercalate ", "
          (["missing.py"].filter fun q =>
            !(isUrlInput q) && (envNoGlobC.findAllGlobs [q]).isEmpty))) ∧
    (pkgUpdate caC [pkgSucceededC] [fnC] "" "default" false "" ""
        ["s.py"] ["a.zip"] "" "9" derrNoneC
      = ⟨some "Need --name argument.", [pkgSucceededC], [fnC], []⟩) ∧
    (pkgUpdate caC [pkgSucceededC] [fnC] "q" "default" false "" ""
        ["s.py"] ["a.zip"] "" "9" derrNoneC
      = ⟨some "Need either of --src or --deploy and not both arguments.",
          [pkgSucceededC], [fnC], []⟩) :=
  ⟨(inputErrors_touch_no_record caC envNoGlobC [pkgSucceededC] [fnC] "q" "default" false "" ""
      ["s.py"] ["a.zip"] ["missing.py"] "" "9" derrNoneC derrNoneC false "missing.py").1,
   (inputErrors_touch_no_record caC envNoGlobC [pkgSucceededC] [fnC] "q" "default" false "" ""
      ["s.py"] ["a.zip"] ["missing.py"] "" "9" derrNoneC derrNoneC false "missing.py").2.1
      (by decide),
   (inputErrors_touch_no_record caC envNoGlobC [pkgSucceededC] [fnC] "q" "default" false "" ""
      ["s.py"] ["a.zip"] ["missing.py"] "" "9" derrNoneC derrNoneC false "missing.py").2.2.1
      (by decide) (by decide) (by decide),
   (inputErrors_touch_no_record caC envNoGlobC [pkgSucceededC] [fnC] "q" "default" false "" ""
      ["s.py"] ["a.zip"] ["missing.py"] "" "9" derrNoneC derrNoneC false "missing.py").2.2.2.1,
   (inputErrors_touch_no_record caC envNoGlobC [pkgSucceededC] [fnC] "q" "default" false "" ""
      ["s.py"] ["a.zip"] ["missing.py"] "" "9" derrNoneC derrNoneC false "missing.py").2.2.2.2
      (by decide) (by decide) (by decide)⟩

end Fission
